import Mathlib

/-!
Verification of the odyssey real-time dispatch layer.

The definitions below are a shallow embedding of the Go source:

* `services/telemetry-service/main.go` — the WebSocket fan-out `Hub`
  (`addClient`, `removeClient`, `broadcast`) and the fire-and-forget
  forwarding goroutine that publishes each broadcast message to RabbitMQ.
* `services/command-service/main.go` — the `DroneRegistry` directory
  (`registerHandler`) and the command proxy (`commandHandler`).

Connections are identified by opaque `Nat` ids (a `*websocket.Conn` pointer
is only ever compared for identity).  Side effects that the claims talk
about — transport `Close()` calls, write attempts, pending asynchronous
removals, spawned forwarding tasks, log lines, outbound HTTP calls — are
made explicit as data in the result records.
-/

namespace Odyssey

/-! ### Telemetry hub state

`Hub.clients` is a Go `map[*websocket.Conn]bool`; we model its key set as a
list of connection ids.  Go map keys are unique, so the faithful states are
those with `clients.Nodup` (theorems take this as a hypothesis).
`closeEvents` records every `conn.Close()` call, in order, so that a double
close would be visible as a duplicated entry. -/
structure HubState where
  clients : List Nat
  closeEvents : List Nat
deriving DecidableEq

/-- `Hub.addClient` (telemetry-service main.go:119-124): under the write
lock, `h.clients[conn] = true`.  Map insert: adds the key if absent. -/
def addClient (h : HubState) (c : Nat) : HubState :=
  { h with clients := if c ∈ h.clients then h.clients else h.clients ++ [c] }

/-- `Hub.removeClient` (telemetry-service main.go:126-134): under the write
lock, `if _, ok := h.clients[conn]; ok { conn.Close(); delete(h.clients, conn) }`.
When the connection is absent the body is skipped entirely: no close, no
delete, no error. -/
def removeClient (h : HubState) (c : Nat) : HubState :=
  if c ∈ h.clients then
    { clients := h.clients.erase c, closeEvents := h.closeEvents ++ [c] }
  else h

/-- The snapshot taken at the start of `Hub.broadcast`
(telemetry-service main.go:138-143): under the read lock, copy the current
key set of `h.clients` into `clientsSnapshot`, then release the lock. -/
def snapshot (h : HubState) : List Nat := h.clients

/-- One `client.WriteMessage(websocket.TextMessage, message)` attempt made
by the broadcast loop, together with whether it returned an error. -/
structure WriteAttempt where
  client : Nat
  message : String
  ok : Bool
deriving DecidableEq

/-- The write loop of `Hub.broadcast` (telemetry-service main.go:145-151):
one `WriteMessage` call per snapshot member, in snapshot order.  `wf c =
true` means the write to connection `c` returns an error (the environment
decides this; the code never retries). -/
def broadcastWrites (wf : Nat → Bool) (snap : List Nat) (msg : String) :
    List WriteAttempt :=
  snap.map fun c => { client := c, message := msg, ok := !(wf c) }

/-- The members whose write failed: for each of these the loop executes
`go h.removeClient(client)` (telemetry-service main.go:147-150). -/
def failedMembers (wf : Nat → Bool) (snap : List Nat) : List Nat :=
  snap.filter fun c => wf c

/-- Everything one `Hub.broadcast` call does, made explicit:
* `hub` — the registry state when the call returns (the call itself never
  mutates the registry; removals are dispatched asynchronously);
* `writes` — the `WriteMessage` attempts of the loop, in order;
* `pendingRemovals` — the `go h.removeClient(...)` dispatches;
* `spawnedForwards` — the payloads of the forwarding goroutines spawned by
  Part 2 of `broadcast` (exactly one `go func(){ amqpChannel.Publish ... }`
  per call, telemetry-service main.go:154-168);
* `forwardLogs` — log lines emitted by that goroutine on publish failure.
-/
structure BroadcastResult where
  hub : HubState
  writes : List WriteAttempt
  pendingRemovals : List Nat
  spawnedForwards : List String
  forwardLogs : List String
deriving DecidableEq

/-- `Hub.broadcast` (telemetry-service main.go:136-169).  `wf c` tells
whether the write to client `c` errors; `ff` tells whether the RabbitMQ
publish performed by the forwarding goroutine errors.  The publish failure
is only logged (main.go:165-167); `broadcast` itself returns nothing to its
caller in Go, so there is no error channel back to the producer. -/
def broadcast (wf : Nat → Bool) (ff : Bool) (h : HubState) (msg : String) :
    BroadcastResult :=
  { hub := h
    writes := broadcastWrites wf (snapshot h) msg
    pendingRemovals := failedMembers wf (snapshot h)
    spawnedForwards := [msg]
    forwardLogs := if ff then ["Failed to publish a message to RabbitMQ"] else [] }

/-- Running the asynchronously dispatched `removeClient` calls of a
broadcast to completion, in some serial order (each runs under the hub's
write lock, so they serialize). -/
def applyRemovals (h : HubState) (cs : List Nat) : HubState :=
  cs.foldl removeClient h

/-! ### Command service: directory and router -/

/-- `RegisterRequest` (command-service main.go:126-129). -/
structure RegisterRequest where
  droneId : String
  address : String
deriving DecidableEq

/-- `CommandRequest` (command-service main.go:131-136).  The payload is a
`json.RawMessage`, an uninterpreted byte string. -/
structure CommandRequest where
  droneId : String
  command : String
  payload : String
deriving DecidableEq

/-- The mutable state of the command service that routing touches:
`DroneRegistry.drones`, a Go `map[string]string` from drone id to base URL
(command-service main.go:113-123).  We model the map as an association
list; `dronesGet` and `dronesPut` implement Go map read and assignment. -/
structure C2State where
  drones : List (String × String)
deriving DecidableEq

/-- Go map read `registry.drones[id]`: the value for the key, if present. -/
def dronesGet : List (String × String) → String → Option String
  | [], _ => none
  | (k, v) :: rest, id => if k = id then some v else dronesGet rest id

/-- Go map assignment `registry.drones[id] = addr`: replaces the value when
the key exists, otherwise appends the binding. -/
def dronesPut : List (String × String) → String → String → List (String × String)
  | [], id, addr => [(id, addr)]
  | (k, v) :: rest, id, addr =>
      if k = id then (id, addr) :: rest else (k, v) :: dronesPut rest id addr

/-- `registerHandler` (command-service main.go:148-161): decode the body,
then under the mutex `registry.drones[req.DroneID] = req.Address`. -/
def registerHandler (s : C2State) (req : RegisterRequest) : C2State :=
  { drones := dronesPut s.drones req.droneId req.address }

/-- One outbound HTTP POST made by the router:
`registry.client.Post(droneAddr+"/command", "application/json", body)` with
body `{"command": cmdReq.Command, "payload": cmdReq.Payload}`
(command-service main.go:186-192).  `command` and `payload` are the two
fields of that marshalled JSON object. -/
structure NetCall where
  url : String
  contentType : String
  command : String
  payload : String
deriving DecidableEq

/-- The three ways `commandHandler` answers the dashboard. -/
inductive RouteOutcome
  | notRegistered
  | gatewayFailure
  | sent
deriving DecidableEq

/-- The HTTP status code of each outcome: `http.StatusNotFound` for an
unregistered drone (main.go:180), `http.StatusInternalServerError` when the
forward fails (main.go:195), `http.StatusOK` on success (main.go:203). -/
def statusCode : RouteOutcome → Nat
  | .notRegistered => 404
  | .gatewayFailure => 500
  | .sent => 200

/-- The body text of each outcome: the `http.Error` strings
(main.go:180,195) and the `Status` field of the success `CommandResponse`
(main.go:204). -/
def responseBody : RouteOutcome → String
  | .notRegistered => "Drone not registered"
  | .gatewayFailure => "Failed to forward command to drone"
  | .sent => "Command sent to drone"

/-- The timeout, in seconds, of the single HTTP client the router uses:
`client: &http.Client{Timeout: 5 * time.Second}` (command-service
main.go:122). -/
def httpClientTimeoutSeconds : Nat := 5

/-- `commandHandler` (command-service main.go:164-207): look up
`registry.drones[cmdReq.DroneID]` under the mutex; if absent, answer 404
"Drone not registered" with no outbound call; otherwise POST the marshalled
`{command, payload}` object to `droneAddr + "/command"` once.  A transport
error (`tf call = true`, covering connection failure and client timeout)
yields the 500 gateway answer; otherwise the fixed success answer is sent.
No branch retries, and no branch writes to `registry.drones`.  The result
is the state after the call, the outcome, and the outbound calls made. -/
def commandHandler (tf : NetCall → Bool) (s : C2State) (req : CommandRequest) :
    C2State × RouteOutcome × List NetCall :=
  match dronesGet s.drones req.droneId with
  | none => (s, .notRegistered, [])
  | some addr =>
      let call : NetCall :=
        { url := addr ++ "/command", contentType := "application/json",
          command := req.command, payload := req.payload }
      if tf call then (s, .gatewayFailure, [call])
      else (s, .sent, [call])

/-! ### Interleaving model for two concurrent broadcasts

`Hub.broadcast` releases the read lock (main.go:143) before the write loop
(main.go:145-151), and `WriteMessage` to a shared connection is not guarded
by any per-subscriber lock or queue.  For two broadcast calls b1 (invoked
first, at T1, with message m1) and b2 (invoked at T2 > T1, with message m2)
that both have subscriber `s` in their snapshots, the only ordering the
code enforces is program order inside each call (its snapshot happens
before its write) plus the invocation order of the snapshots; two read
locks do not exclude each other, so nothing orders b1's write to `s`
relative to b2's write to `s`. -/
inductive Ev
  | snap1
  | write1
  | snap2
  | write2
deriving DecidableEq

/-- `a` occurs strictly before `b` in the trace. -/
def beforeIn (tr : List Ev) (a b : Ev) : Bool :=
  Nat.blt (tr.indexOf a) (tr.indexOf b)

/-- A schedule of the four events that the synchronization in the code
permits: each event exactly once, each broadcast's snapshot before its own
write, and b1's snapshot (taken at T1) before b2's (taken at T2).  There is
no constraint between `write1` and `write2`: the read lock has been
released before either write and no per-subscriber mutual exclusion
exists. -/
def admissibleSchedule (tr : List Ev) : Bool :=
  (tr.length == 4) && tr.contains Ev.snap1 && tr.contains Ev.write1 &&
  tr.contains Ev.snap2 && tr.contains Ev.write2 &&
  beforeIn tr Ev.snap1 Ev.write1 && beforeIn tr Ev.snap2 Ev.write2 &&
  beforeIn tr Ev.snap1 Ev.snap2

/-- The sequence of messages subscriber `s` observes under a schedule:
`write1` delivers b1's message `m1`, `write2` delivers b2's message `m2`. -/
def observedBySubscriber (m1 m2 : String) (tr : List Ev) : List String :=
  tr.filterMap fun e =>
    match e with
    | Ev.write1 => some m1
    | Ev.write2 => some m2
    | _ => none

/-! ### Burst model for the forwarding path

Part 2 of `Hub.broadcast` (telemetry-service main.go:153-168) spawns one
fresh goroutine per call — `go func(){ amqpChannel.Publish(...) }()` — with
no worker pool, semaphore, or bounded queue anywhere in the service.  A
burst of broadcast calls therefore spawns one forwarding task each, and
nothing in the code prevents all of them from being outstanding at once
(the worst case: none has completed yet). -/
def burstForwardTasks (wf : Nat → Bool) (h : HubState) (msgs : List String) :
    List String :=
  msgs.foldr (fun m acc => (broadcast wf false h m).spawnedForwards ++ acc) []

/-- Worst-case number of simultaneously outstanding forwarding dispatches
for a burst: all spawned tasks, since no bounding structure exists. -/
def worstCaseOutstanding (wf : Nat → Bool) (h : HubState) (msgs : List String) :
    Nat :=
  (burstForwardTasks wf h msgs).length

/-! ### Helper lemmas -/

lemma removeClient_clients_of_mem (h : HubState) (c : Nat) (hc : c ∈ h.clients) :
    (removeClient h c).clients = h.clients.erase c := by
  simp [removeClient, hc]

lemma broadcastWrites_filter_length (wf : Nat → Bool) (msg : String) (c : Nat)
    (snap : List Nat) :
    ((broadcastWrites wf snap msg).filter (fun w => w.client == c)).length
      = snap.count c := by
  induction snap with
  | nil => rfl
  | cons a t ih =>
    simp only [broadcastWrites] at ih ⊢
    by_cases h : a = c
    · subst h
      simp only [List.map_cons, List.filter_cons, beq_self_eq_true, if_pos,
        List.length_cons, List.count_cons]
      omega
    · simp [List.filter_cons, List.count_cons, h, ih]

lemma applyRemovals_cons (h : HubState) (a : Nat) (t : List Nat) :
    applyRemovals h (a :: t) = applyRemovals (removeClient h a) t := rfl

lemma applyRemovals_length (cs : List Nat) (h : HubState)
    (hnd : h.clients.Nodup) (hcs : cs.Nodup) (hsub : ∀ c ∈ cs, c ∈ h.clients) :
    (applyRemovals h cs).clients.length = h.clients.length - cs.length := by
  induction cs generalizing h with
  | nil => simp [applyRemovals]
  | cons a t ih =>
    have ha : a ∈ h.clients := hsub a (List.mem_cons_self a t)
    have hpos : 0 < h.clients.length := List.length_pos_of_mem ha
    rw [applyRemovals_cons,
        ih (removeClient h a)
          (by rw [removeClient_clients_of_mem h a ha]; exact hnd.erase a)
          (List.Nodup.of_cons hcs)
          (by
            intro c hct
            rw [removeClient_clients_of_mem h a ha]
            have hne : c ≠ a := by
              intro e
              exact (List.nodup_cons.mp hcs).1 (e ▸ hct)
            exact (List.mem_erase_of_ne hne).mpr (hsub c (List.mem_cons_of_mem a hct))),
        removeClient_clients_of_mem h a ha, List.length_erase_of_mem ha]
    simp only [List.length_cons]
    omega

lemma applyRemovals_mem (cs : List Nat) (h : HubState) (c : Nat)
    (hc : c ∈ h.clients) (hnc : c ∉ cs) :
    c ∈ (applyRemovals h cs).clients := by
  induction cs generalizing h with
  | nil => simpa [applyRemovals] using hc
  | cons a t ih =>
    have hne : c ≠ a := by
      intro e
      exact hnc (e ▸ List.mem_cons_self a t)
    rw [applyRemovals_cons]
    apply ih
    · by_cases hmem : a ∈ h.clients
      · rw [removeClient_clients_of_mem h a hmem]
        exact (List.mem_erase_of_ne hne).mpr hc
      · simpa [removeClient, hmem] using hc
    · intro hct
      exact hnc (List.mem_cons_of_mem a hct)

lemma removeClient_of_not_mem (h : HubState) (c : Nat) (hc : c ∉ h.clients) :
    removeClient h c = h := by
  simp [removeClient, hc]

lemma dronesGet_dronesPut_self (m : List (String × String)) (k v : String) :
    dronesGet (dronesPut m k v) k = some v := by
  induction m with
  | nil => simp [dronesPut, dronesGet]
  | cons p rest ih =>
    obtain ⟨k0, v0⟩ := p
    by_cases h : k0 = k
    · simp [dronesPut, h, dronesGet]
    · simp [dronesPut, h, dronesGet, ih]

/-! ### Claim theorems -/

/-- C2: in a broadcast, a write failure on one snapshot member does not
prevent the single delivery attempt to any other member (every snapshot
member gets exactly one attempt, never a retry), and after the dispatched
`removeClient` calls run, the registry has shrunk by exactly one entry per
failed member while every non-failed member is still registered. -/
theorem broadcast_failure_isolation (wf : Nat → Bool) (ff : Bool) (h : HubState)
    (msg : String) (hnd : h.clients.Nodup) :
    (∀ c ∈ snapshot h,
      ((broadcast wf ff h msg).writes.filter (fun w => w.client == c)).length = 1) ∧
    (applyRemovals (broadcast wf ff h msg).hub
        (broadcast wf ff h msg).pendingRemovals).clients.length
      = h.clients.length - (failedMembers wf (snapshot h)).length ∧
    ∀ c ∈ snapshot h, wf c = false →
      c ∈ (applyRemovals (broadcast wf ff h msg).hub
            (broadcast wf ff h msg).pendingRemovals).clients := by
  refine ⟨?_, ?_, ?_⟩
  · intro c hc
    have hw : (broadcast wf ff h msg).writes = broadcastWrites wf (snapshot h) msg := rfl
    rw [hw, broadcastWrites_filter_length]
    exact List.count_eq_one_of_mem hnd hc
  · have hh : (broadcast wf ff h msg).hub = h := rfl
    have hp : (broadcast wf ff h msg).pendingRemovals
        = failedMembers wf (snapshot h) := rfl
    rw [hh, hp]
    exact applyRemovals_length _ h hnd (hnd.filter _)
      (fun c hc => List.mem_of_mem_filter hc)
  · intro c hc hwf
    have hh : (broadcast wf ff h msg).hub = h := rfl
    have hp : (broadcast wf ff h msg).pendingRemovals
        = failedMembers wf (snapshot h) := rfl
    rw [hh, hp]
    apply applyRemovals_mem _ h c hc
    intro hmem
    have htrue := List.of_mem_filter hmem
    rw [hwf] at htrue
    exact Bool.false_ne_true htrue

/-- C2 witness: three clients, client 2's write fails. -/
theorem broadcast_failure_isolation_witness :
    (∀ c ∈ snapshot ⟨[1, 2, 3], []⟩,
      ((broadcast (fun c => c == 2) true ⟨[1, 2, 3], []⟩ "m").writes.filter
          (fun w => w.client == c)).length = 1) ∧
    (applyRemovals (broadcast (fun c => c == 2) true ⟨[1, 2, 3], []⟩ "m").hub
        (broadcast (fun c => c == 2) true ⟨[1, 2, 3], []⟩ "m").pendingRemovals).clients.length
      = (HubState.mk [1, 2, 3] []).clients.length
          - (failedMembers (fun c => c == 2) (snapshot ⟨[1, 2, 3], []⟩)).length ∧
    ∀ c ∈ snapshot (⟨[1, 2, 3], []⟩ : HubState), (fun c : Nat => c == 2) c = false →
      c ∈ (applyRemovals (broadcast (fun c => c == 2) true ⟨[1, 2, 3], []⟩ "m").hub
            (broadcast (fun c => c == 2) true ⟨[1, 2, 3], []⟩ "m").pendingRemovals).clients :=
  broadcast_failure_isolation (fun c => c == 2) true ⟨[1, 2, 3], []⟩ "m" (by decide)

/-- C3: a broadcast call first snapshots the registry, and the write loop
then targets exactly the snapshot members in snapshot order — each member
receives exactly one attempt carrying the encoded payload, with no
duplicates and no omissions. -/
theorem broadcast_snapshot_exactly_once (wf : Nat → Bool) (ff : Bool)
    (h : HubState) (msg : String) (hnd : h.clients.Nodup) :
    ((broadcast wf ff h msg).writes.map fun w => w.client) = snapshot h ∧
    (∀ w ∈ (broadcast wf ff h msg).writes, w.message = msg) ∧
    ∀ c ∈ snapshot h,
      ((broadcast wf ff h msg).writes.filter (fun w => w.client == c)).length = 1 := by
  refine ⟨?_, ?_, ?_⟩
  · simp only [broadcast, broadcastWrites, List.map_map]
    exact List.map_id _
  · intro w hw
    simp only [broadcast, broadcastWrites, List.mem_map] at hw
    obtain ⟨c, _, rfl⟩ := hw
    rfl
  · intro c hc
    have hw : (broadcast wf ff h msg).writes = broadcastWrites wf (snapshot h) msg := rfl
    rw [hw, broadcastWrites_filter_length]
    exact List.count_eq_one_of_mem hnd hc

/-- C3 witness: two clients, no failures. -/
theorem broadcast_snapshot_exactly_once_witness :
    ((broadcast (fun _ => false) false ⟨[4, 7], []⟩ "p").writes.map fun w => w.client)
      = snapshot ⟨[4, 7], []⟩ ∧
    (∀ w ∈ (broadcast (fun _ => false) false ⟨[4, 7], []⟩ "p").writes,
      w.message = "p") ∧
    ∀ c ∈ snapshot (⟨[4, 7], []⟩ : HubState),
      ((broadcast (fun _ => false) false ⟨[4, 7], []⟩ "p").writes.filter
          (fun w => w.client == c)).length = 1 :=
  broadcast_snapshot_exactly_once (fun _ => false) false ⟨[4, 7], []⟩ "p" (by decide)

/-- C4: `removeClient` is idempotent.  On an absent connection it is a
no-op — state (and hence registry size) unchanged, no close emitted, no
error (the function is total).  On a present connection it deletes the
entry and closes the transport exactly once; a second call is then a no-op
and in particular does not close a second time. -/
theorem removeClient_idempotent (h : HubState) (c : Nat) (hnd : h.clients.Nodup) :
    (c ∉ h.clients → removeClient h c = h) ∧
    (c ∈ h.clients →
      removeClient (removeClient h c) c = removeClient h c ∧
      (removeClient h c).closeEvents = h.closeEvents ++ [c] ∧
      (removeClient (removeClient h c) c).closeEvents = h.closeEvents ++ [c] ∧
      (removeClient h c).clients.length + 1 = h.clients.length) := by
  constructor
  · intro habs
    exact removeClient_of_not_mem h c habs
  · intro hmem
    have hnotin : c ∉ (removeClient h c).clients := by
      rw [removeClient_clients_of_mem h c hmem]
      exact hnd.not_mem_erase
    have h2 : removeClient (removeClient h c) c = removeClient h c :=
      removeClient_of_not_mem _ c hnotin
    refine ⟨h2, by simp [removeClient, hmem], by rw [h2]; simp [removeClient, hmem], ?_⟩
    rw [removeClient_clients_of_mem h c hmem, List.length_erase_of_mem hmem]
    have hpos := List.length_pos_of_mem hmem
    omega

/-- C4 witness: removing absent client 9 from `[5, 6]` is a no-op, and
removing present client 5 closes once and is idempotent. -/
theorem removeClient_idempotent_witness :
    removeClient ⟨[5, 6], []⟩ 9 = ⟨[5, 6], []⟩ ∧
    removeClient (removeClient ⟨[5, 6], []⟩ 5) 5 = removeClient ⟨[5, 6], []⟩ 5 ∧
    (removeClient (⟨[5, 6], []⟩ : HubState) 5).closeEvents = ([] : List Nat) ++ [5] ∧
    (removeClient (removeClient ⟨[5, 6], []⟩ 5) 5).closeEvents = ([] : List Nat) ++ [5] ∧
    (removeClient (⟨[5, 6], []⟩ : HubState) 5).clients.length + 1
      = (HubState.mk [5, 6] []).clients.length :=
  ⟨(removeClient_idempotent ⟨[5, 6], []⟩ 9 (by decide)).1 (by decide),
   (removeClient_idempotent ⟨[5, 6], []⟩ 5 (by decide)).2 (by decide)⟩

/-- C10: a failure of the forwarding goroutine's publish changes nothing
about the same broadcast's behavior toward live subscribers — identical
write attempts, identical registry state, identical pending removals,
identical spawned task — and is observable only as a log line; the success
case logs nothing.  `broadcast` returns no value in Go, so no error can
reach the sample producer. -/
theorem forwarding_failure_contained (wf : Nat → Bool) (h : HubState) (msg : String) :
    (broadcast wf true h msg).writes = (broadcast wf false h msg).writes ∧
    (broadcast wf true h msg).hub = (broadcast wf false h msg).hub ∧
    (broadcast wf true h msg).pendingRemovals
      = (broadcast wf false h msg).pendingRemovals ∧
    (broadcast wf true h msg).spawnedForwards
      = (broadcast wf false h msg).spawnedForwards ∧
    (broadcast wf true h msg).forwardLogs
      = ["Failed to publish a message to RabbitMQ"] ∧
    (broadcast wf false h msg).forwardLogs = [] :=
  ⟨rfl, rfl, rfl, rfl, rfl, rfl⟩

/-- C5: registration is a last-write-wins upsert.  After
`register(d, a)` then `register(d, b)` the directory maps `d` to `b` only,
and routing a command for `d` performs exactly one outbound POST, to
`b ++ "/command"` — never to `a`. -/
theorem register_last_write_wins (s : C2State) (d a b cmdName payload : String)
    (tf : NetCall → Bool) :
    dronesGet (registerHandler (registerHandler s ⟨d, a⟩) ⟨d, b⟩).drones d = some b ∧
    (commandHandler tf (registerHandler (registerHandler s ⟨d, a⟩) ⟨d, b⟩)
        ⟨d, cmdName, payload⟩).2.2
      = [⟨b ++ "/command", "application/json", cmdName, payload⟩] := by
  have hget : dronesGet (registerHandler (registerHandler s ⟨d, a⟩) ⟨d, b⟩).drones d
      = some b := dronesGet_dronesPut_self _ d b
  refine ⟨hget, ?_⟩
  simp only [commandHandler, hget]
  by_cases htf : tf ⟨b ++ "/command", "application/json", cmdName, payload⟩
  · simp [htf]
  · simp [htf]

/-- C6: routing a command for an identity absent from the directory answers
404 "Drone not registered" — a client-error-class outcome distinct from the
gateway failure — performs zero outbound network calls, and leaves the
state unchanged. -/
theorem route_unregistered (tf : NetCall → Bool) (s : C2State) (req : CommandRequest)
    (hmiss : dronesGet s.drones req.droneId = none) :
    commandHandler tf s req = (s, RouteOutcome.notRegistered, []) ∧
    statusCode RouteOutcome.notRegistered = 404 ∧
    statusCode RouteOutcome.gatewayFailure = 500 ∧
    responseBody RouteOutcome.notRegistered = "Drone not registered" ∧
    RouteOutcome.notRegistered ≠ RouteOutcome.gatewayFailure := by
  refine ⟨?_, rfl, rfl, rfl, by decide⟩
  simp [commandHandler, hmiss]

/-- C6 witness: a directory holding only "d1", routed for "d2". -/
theorem route_unregistered_witness :
    commandHandler (fun _ => false) ⟨[("d1", "http://h:9000")]⟩ ⟨"d2", "PING", "p"⟩
      = (⟨[("d1", "http://h:9000")]⟩, RouteOutcome.notRegistered, []) ∧
    statusCode RouteOutcome.notRegistered = 404 ∧
    statusCode RouteOutcome.gatewayFailure = 500 ∧
    responseBody RouteOutcome.notRegistered = "Drone not registered" ∧
    RouteOutcome.notRegistered ≠ RouteOutcome.gatewayFailure :=
  route_unregistered (fun _ => false) ⟨[("d1", "http://h:9000")]⟩ ⟨"d2", "PING", "p"⟩
    (by decide)

/-- C7: when the target resolves to `addr`, the router POSTs the marshalled
`{command, payload}` object to `addr ++ "/command"` exactly once (no
retry), under the client's fixed finite timeout; the caller gets the fixed
success body "Command sent to drone" exactly when the remote call does not
error, and the gateway-failure outcome — distinct from NotRegistered —
exactly when it errors or times out. -/
theorem route_resolved (tf : NetCall → Bool) (s : C2State) (req : CommandRequest)
    (addr : String) (hhit : dronesGet s.drones req.droneId = some addr) :
    (commandHandler tf s req).2.2
      = [⟨addr ++ "/command", "application/json", req.command, req.payload⟩] ∧
    ((commandHandler tf s req).2.1 = RouteOutcome.sent ↔
      tf ⟨addr ++ "/command", "application/json", req.command, req.payload⟩ = false) ∧
    ((commandHandler tf s req).2.1 = RouteOutcome.gatewayFailure ↔
      tf ⟨addr ++ "/command", "application/json", req.command, req.payload⟩ = true) ∧
    responseBody RouteOutcome.sent = "Command sent to drone" ∧
    statusCode RouteOutcome.sent = 200 ∧
    RouteOutcome.gatewayFailure ≠ RouteOutcome.notRegistered ∧
    0 < httpClientTimeoutSeconds := by
  simp only [commandHandler, hhit]
  by_cases htf : tf ⟨addr ++ "/command", "application/json", req.command, req.payload⟩
  · simp [htf, httpClientTimeoutSeconds]
    exact ⟨rfl, rfl⟩
  · simp [htf, httpClientTimeoutSeconds]
    exact ⟨rfl, rfl⟩

/-- C7 witness: the spec scenario — "d1" registered at `http://h:9000`,
command "PING" forwarded successfully. -/
theorem route_resolved_witness :
    (commandHandler (fun _ => false) ⟨[("d1", "http://h:9000")]⟩
        ⟨"d1", "PING", "p"⟩).2.2
      = [⟨"http://h:9000" ++ "/command", "application/json", "PING", "p"⟩] ∧
    ((commandHandler (fun _ => false) ⟨[("d1", "http://h:9000")]⟩
        ⟨"d1", "PING", "p"⟩).2.1 = RouteOutcome.sent ↔
      (fun _ : NetCall => false)
          ⟨"http://h:9000" ++ "/command", "application/json", "PING", "p"⟩ = false) ∧
    ((commandHandler (fun _ => false) ⟨[("d1", "http://h:9000")]⟩
        ⟨"d1", "PING", "p"⟩).2.1 = RouteOutcome.gatewayFailure ↔
      (fun _ : NetCall => false)
          ⟨"http://h:9000" ++ "/command", "application/json", "PING", "p"⟩ = true) ∧
    responseBody RouteOutcome.sent = "Command sent to drone" ∧
    statusCode RouteOutcome.sent = 200 ∧
    RouteOutcome.gatewayFailure ≠ RouteOutcome.notRegistered ∧
    0 < httpClientTimeoutSeconds :=
  route_resolved (fun _ => false) ⟨[("d1", "http://h:9000")]⟩ ⟨"d1", "PING", "p"⟩
    "http://h:9000" (by decide)

/-- C8: routing never modifies the directory — whatever the outcome, the
state returned by `commandHandler` is exactly the state it was given. -/
theorem route_preserves_directory (tf : NetCall → Bool) (s : C2State)
    (req : CommandRequest) :
    (commandHandler tf s req).1 = s := by
  unfold commandHandler
  cases hget : dronesGet s.drones req.droneId with
  | none => rfl
  | some addr =>
      by_cases htf : tf ⟨addr ++ "/command", "application/json", req.command, req.payload⟩
      · simp [htf]
      · simp [htf]

lemma burstForwardTasks_length (wf : Nat → Bool) (h : HubState)
    (msgs : List String) :
    (burstForwardTasks wf h msgs).length = msgs.length := by
  induction msgs with
  | nil => rfl
  | cons m t ih =>
    have hstep : burstForwardTasks wf h (m :: t) = m :: burstForwardTasks wf h t := rfl
    rw [hstep, List.length_cons, ih, List.length_cons]

/-- C1: the claim fails on the code.  The schedule `snap1, snap2, write2,
write1` satisfies every ordering constraint the code enforces (program
order within each broadcast call plus the T1 < T2 snapshot order; the read
lock is released before the writes and no per-subscriber lock or queue
exists), yet under it the subscriber observes the T2 sample before the T1
sample — so per-subscriber order is not guaranteed for concurrent
broadcast calls. -/
theorem broadcast_interleaving_reorders :
    admissibleSchedule [Ev.snap1, Ev.snap2, Ev.write2, Ev.write1] = true ∧
    observedBySubscriber "sampleT1" "sampleT2"
        [Ev.snap1, Ev.snap2, Ev.write2, Ev.write1] = ["sampleT2", "sampleT1"] ∧
    ¬ ∀ tr : List Ev, admissibleSchedule tr = true →
        observedBySubscriber "sampleT1" "sampleT2" tr = ["sampleT1", "sampleT2"] := by
  refine ⟨by decide, by decide, fun hall => ?_⟩
  have h := hall [Ev.snap1, Ev.snap2, Ev.write2, Ev.write1] (by decide)
  exact absurd h (by decide)

/-- C9: the claim fails on the code.  Every broadcast call spawns one fresh
forwarding goroutine with no pool, semaphore, or bounded queue, so a burst
of N broadcast calls can have N forwarding dispatches outstanding at once:
no fixed constant independent of N bounds them. -/
theorem forwarding_dispatch_unbounded :
    (∀ (wf : Nat → Bool) (h : HubState) (msgs : List String),
      worstCaseOutstanding wf h msgs = msgs.length) ∧
    ¬ ∃ c : Nat, ∀ n : Nat,
        worstCaseOutstanding (fun _ => false) ⟨[], []⟩ (List.replicate n "sample") ≤ c := by
  refine ⟨fun wf h msgs => burstForwardTasks_length wf h msgs, ?_⟩
  rintro ⟨c, hc⟩
  have h1 := hc (c + 1)
  rw [show worstCaseOutstanding (fun _ => false) ⟨[], []⟩
        (List.replicate (c + 1) "sample")
      = (List.replicate (c + 1) "sample").length
    from burstForwardTasks_length _ _ _] at h1
  simp only [List.length_replicate] at h1
  omega

end Odyssey
